import Mathlib

/-
Verification of the Flatfox provider (src/lib/provider/flatfox.js).

The JavaScript source is shallowly embedded: JS objects become structures
with one Option field per property (none = property absent / undefined /
null), JSON numbers become exact rationals (integers for prices), and the
two HTTP endpoints become oracle functions mapping the request that the
code builds to the response the network would return.  Errors thrown by
the code are modelled with Except.
-/

namespace Flatfox

/-- JS truthiness of a possibly-absent string: undefined, null and the
empty string are falsy. -/
def truthyStr (s : Option String) : Bool :=
  match s with
  | some v => v ≠ ""
  | none => false

/-- JS truthiness of a possibly-absent integer: undefined and 0 are falsy. -/
def truthyInt (n : Option Int) : Bool :=
  match n with
  | some v => v ≠ 0
  | none => false

/-- JS truthiness of a possibly-absent rational: undefined and 0 are falsy. -/
def truthyQ (q : Option ℚ) : Bool :=
  match q with
  | some v => v ≠ 0
  | none => false

/-- The value of a JS number as produced by parseFloat: a finite number,
one of the two infinities, or NaN. -/
inductive JsNum where
  | num (q : ℚ)
  | posInf
  | negInf
  | nan
deriving DecidableEq

/-- The finite value of a JsNum, when it has one. -/
def JsNum.toQ? (b : JsNum) : Option ℚ :=
  match b with
  | .num q => some q
  | _ => none

/-- JS comparison x < b where b may be infinite or NaN (NaN compares false). -/
def jsLtQ (x : ℚ) (b : JsNum) : Bool :=
  match b with
  | .num q => decide (x < q)
  | .posInf => true
  | .negInf => false
  | .nan => false

/-- JS comparison x > b where b may be infinite or NaN (NaN compares false). -/
def jsGtQ (x : ℚ) (b : JsNum) : Bool :=
  match b with
  | .num q => decide (q < x)
  | .posInf => false
  | .negInf => true
  | .nan => false

/-- Value of a decimal digit list, most significant first. -/
def digitsToNat (ds : List Char) : ℕ :=
  ds.foldl (fun a c => 10 * a + (c.toNat - 48)) 0

/-- Exponent suffix of a JS float literal: `e` or `E`, an optional sign and
digits; anything else (including a missing digit run) contributes 0. -/
def parseExpPart (cs : List Char) : ℤ :=
  match cs with
  | c :: rest =>
    if c = 'e' ∨ c = 'E' then
      match rest with
      | '-' :: r =>
        let ds := r.takeWhile Char.isDigit
        if ds = [] then 0 else -(digitsToNat ds : ℤ)
      | '+' :: r =>
        let ds := r.takeWhile Char.isDigit
        if ds = [] then 0 else (digitsToNat ds : ℤ)
      | r =>
        let ds := r.takeWhile Char.isDigit
        if ds = [] then 0 else (digitsToNat ds : ℤ)
    else 0
  | [] => 0

/-- Body of parseFloat after sign handling: Infinity, or digits with an
optional fraction and exponent; NaN when no digit is found.  The value
sign * (intDigits.fracDigits) * 10 ^ exp is assembled as one exact
rational. -/
def jsParseFloatCore (cs : List Char) (neg : Bool) : JsNum :=
  if List.isPrefixOf ("Infinity".toList) cs then
    (if neg then JsNum.negInf else JsNum.posInf)
  else
    let intDs := cs.takeWhile Char.isDigit
    let rest := cs.drop intDs.length
    let fracDs := match rest with
      | '.' :: r => r.takeWhile Char.isDigit
      | _ => []
    let rest2 := match rest with
      | '.' :: r => r.drop fracDs.length
      | _ => rest
    if intDs = [] ∧ fracDs = [] then JsNum.nan
    else
      let m : ℤ := ((digitsToNat intDs * 10 ^ fracDs.length + digitsToNat fracDs : ℕ) : ℤ)
      let m : ℤ := if neg then -m else m
      let e : ℤ := parseExpPart rest2
      JsNum.num (mkRat (m * (10 : ℤ) ^ e.toNat) ((10 : ℕ) ^ (fracDs.length + (-e).toNat)))

/-- Model of the platform parseFloat: leading whitespace is skipped, then an
optional sign, then either Infinity or a leading decimal literal; NaN when
nothing numeric is found. -/
def jsParseFloat (s : String) : JsNum :=
  let cs := s.toList.dropWhile (fun c => c = ' ' ∨ c = '\t' ∨ c = '\n' ∨ c = '\r')
  match cs with
  | '-' :: rest => jsParseFloatCore rest true
  | '+' :: rest => jsParseFloatCore rest false
  | rest => jsParseFloatCore rest false

/-- The thousands separator used by toLocaleString with locale de-CH
(U+2019, RIGHT SINGLE QUOTATION MARK). -/
def groupSep : Char := Char.ofNat 0x2019

/-- Split a (reversed) digit list into groups of three, fuelled by length. -/
def chunk3 : ℕ → List Char → List (List Char)
  | 0, _ => []
  | _, [] => []
  | n + 1, l => l.take 3 :: chunk3 n (l.drop 3)

/-- Insert the de-CH thousands separator every three digits from the right. -/
def groupThousands (s : String) : String :=
  let r := s.toList.reverse
  String.mk (List.intercalate [groupSep] (chunk3 r.length r)).reverse

/-- Model of Number.prototype.toLocaleString with locale de-CH on integers:
digit groups of three separated by U+2019. -/
def toLocaleStringDeCH (n : ℤ) : String :=
  (if n < 0 then "-" else "") ++ groupThousands (toString n.natAbs)

/-- Fraction digits of the exact decimal expansion of rem/d, fuelled. -/
def fracDigitChars : ℕ → ℕ → ℕ → List Char
  | 0, _, _ => []
  | _ + 1, 0, _ => []
  | f + 1, rem, d =>
    Char.ofNat (48 + (rem * 10) / d) :: fracDigitChars f ((rem * 10) % d) d

/-- JS default number-to-string conversion for the rationals reached here
(JSON numerals, whose exact decimal expansions terminate). -/
def qToString (q : ℚ) : String :=
  let a := q.num.natAbs
  let d := q.den
  let ds := fracDigitChars 30 (a % d) d
  (if q < 0 then "-" else "") ++ toString (a / d) ++
    (if ds = [] then "" else "." ++ String.mk ds)

/-- JS String(x) on the possibly-absent numeric pk field. -/
def jsStringOfPk (pk : Option Int) : String :=
  match pk with
  | some n => toString n
  | none => "undefined"

/-- JS a || b for a possibly-absent string a with string fallback b. -/
def jsStrOr (a : Option String) (b : String) : String :=
  match a with
  | some s => if s = "" then b else s
  | none => b

/-- A cover_image object; only url_listing_search is read by the code. -/
structure CoverImage where
  url_listing_search : Option String := none
deriving DecidableEq

/-- A JS object flowing through the provider.  Raw API records use the
fields pk .. public_address; the objects built by mapApiToListing use the
fields id .. image.  Every field is optional, as JS property reads on a
missing property yield undefined. -/
structure Item where
  pk : Option Int := none
  url : Option String := none
  short_title : Option String := none
  pitch_title : Option String := none
  price_display : Option Int := none
  number_of_rooms : Option ℚ := none
  surface_living : Option ℚ := none
  cover_image : Option CoverImage := none
  description_title : Option String := none
  description : Option String := none
  public_address : Option String := none
  id : Option String := none
  price : Option String := none
  size : Option String := none
  title : Option String := none
  link : Option String := none
  address : Option String := none
  image : Option String := none
deriving DecidableEq, Inhabited

/-- Search parameters: the string key/value mapping built by
parseSearchUrl, represented as an association list with unique keys. -/
def Params : Type := List (String × String)

/-- JS object property read on the mapping. -/
def jsGet (m : List (String × String)) (k : String) : Option String :=
  (m.find? (fun p => p.1 = k)).map (fun p => p.2)

/-- JS object property write params[k] = v: overwrite in place when the key
exists, append otherwise (JS objects keep insertion order). -/
def jsSet (m : List (String × String)) (k v : String) : List (String × String) :=
  if m.any (fun p => p.1 = k) then
    m.map (fun p => if p.1 = k then (p.1, v) else p)
  else m ++ [(k, v)]

/-- parseSearchUrl: iterate over the decoded query entries of the URL and
assign each into a fresh object.  The platform URL parsing itself is not
modelled; the input is the decoded entry list of urlObj.searchParams. -/
def parseSearchUrl (entries : List (String × String)) : List (String × String) :=
  entries.foldl (fun m kv => jsSet m kv.1 kv.2) []

/-- The parameter keys fetchListingIds copies onto the pin request, in the
order the code sets them. -/
def recognizedPinKeys : List String :=
  ["east", "west", "north", "south", "object_category", "offer_type",
   "min_rooms", "max_rooms", "min_price", "max_price",
   "attribute", "moving_date_from", "is_swap", "ordering"]

/-- One conditional searchParams.set of fetchListingIds: the key is copied
only when params[k] is truthy (present with a non-empty value). -/
def pinParam (params : Params) (k : String) : List (String × String) :=
  match jsGet params k with
  | some v => if v = "" then [] else [(k, v)]
  | none => []

/-- The query of the pin request built by fetchListingIds: the recognized
keys that are truthy in params, then max_count=400 (always set last,
never taken from params). -/
def buildPinQuery (params : Params) : List (String × String) :=
  (recognizedPinKeys.flatMap (pinParam params)) ++ [("max_count", "400")]

/-- A pin returned by the pin endpoint; only pk is consumed. -/
structure Pin where
  pk : Int
deriving DecidableEq

/-- fetchListingIds: build the pin query, issue the request (the oracle
pinFetch maps the built query to the response or a thrown error), and
return the pk of every pin. -/
def fetchListingIds (params : Params)
    (pinFetch : List (String × String) → Except String (List Pin)) :
    Except String (List Int) :=
  (pinFetch (buildPinQuery params)).map (fun pins => pins.map Pin.pk)

/-- The JSON body of the public-listing endpoint: either a plain array or
an object whose results field may be absent. -/
inductive DetailData where
  | arr (l : List Item)
  | obj (results : Option (List Item))
deriving DecidableEq

/-- fetchListingDetails: empty input returns [] with no request; otherwise
the response is the array itself, or data.results || [] for the paginated
shape.  The oracle detailFetch maps the requested pks to the response. -/
def fetchListingDetails (pks : List Int)
    (detailFetch : List Int → Except String DetailData) :
    Except String (List Item) :=
  if pks = [] then .ok []
  else (detailFetch pks).map (fun d =>
    match d with
    | .arr l => l
    | .obj r => r.getD [])

/-- The lower bound read by filterListings: parseFloat(params.k || 0). -/
def jsBoundMin (v : Option String) : JsNum :=
  match v with
  | some s => if s = "" then JsNum.num 0 else jsParseFloat s
  | none => JsNum.num 0

/-- The upper bound read by filterListings: parseFloat(params.k || Infinity). -/
def jsBoundMax (v : Option String) : JsNum :=
  match v with
  | some s => if s = "" then JsNum.posInf else jsParseFloat s
  | none => JsNum.posInf

/-- The predicate filterListings applies to one non-null item: rooms and
price (each read from the item, 0 when absent) must not violate either
bound. -/
def filterItem (item : Item) (params : Params) : Bool :=
  let minRooms := jsBoundMin (jsGet params "min_rooms")
  let maxRooms := jsBoundMax (jsGet params "max_rooms")
  let minPrice := jsBoundMin (jsGet params "min_price")
  let maxPrice := jsBoundMax (jsGet params "max_price")
  let rooms : ℚ := item.number_of_rooms.getD 0
  let price : ℚ := ((item.price_display.getD 0 : Int) : ℚ)
  if jsLtQ rooms minRooms || jsGtQ rooms maxRooms then false
  else if jsLtQ price minPrice || jsGtQ price maxPrice then false
  else true

/-- filterListings: drop null entries and keep the items filterItem
accepts (the survivors are non-null, so the result is a plain item list). -/
def filterListings (listings : List (Option Item)) (params : Params) : List Item :=
  listings.filterMap (fun oi =>
    match oi with
    | none => none
    | some item => if filterItem item params then some item else none)

/-- mapApiToListing: reject records without a truthy url or without a
truthy short_title or pitch_title, otherwise build the normalized listing
object (which carries only the eight mapped properties). -/
def mapApiToListing (item : Item) : Option Item :=
  let pk := jsStringOfPk item.pk
  if truthyStr item.url = false then none
  else if truthyStr item.short_title = false ∧ truthyStr item.pitch_title = false then none
  else
    let price : String :=
      match item.price_display with
      | some p => if p = 0 then "" else toLocaleStringDeCH p ++ " CHF"
      | none => ""
    let sizeArr : List String :=
      (if truthyQ item.number_of_rooms then [qToString (item.number_of_rooms.getD 0) ++ " rooms"] else []) ++
      (if truthyQ item.surface_living then [qToString (item.surface_living.getD 0) ++ " m²"] else [])
    let image : String :=
      match item.cover_image with
      | some ci =>
        match ci.url_listing_search with
        | some u => if u = "" then "" else "https://flatfox.ch" ++ u
        | none => ""
      | none => ""
    some
      { id := some pk
        price := some price
        size := some (String.intercalate ", " sizeArr)
        title := some (jsStrOr item.short_title (jsStrOr item.pitch_title ""))
        link := some ("https://www.flatfox.ch" ++ item.url.getD "")
        description := some (jsStrOr item.description_title
          (match item.description with
           | some dsc => if dsc = "" then "" else dsc.take 200
           | none => ""))
        address := some (jsStrOr item.public_address "")
        image := some image }

/-- The body of the try block of getListings: parse the URL query, fetch
pin ids, return [] when none, fetch details, map each record (dropping the
null rejections), then apply the client-side filter. -/
def getListingsCore (urlRes : Except String (List (String × String)))
    (pinFetch : List (String × String) → Except String (List Pin))
    (detailFetch : List Int → Except String DetailData) :
    Except String (List Item) :=
  match urlRes with
  | .error e => .error e
  | .ok entries =>
    let params := parseSearchUrl entries
    match fetchListingIds params pinFetch with
    | .error e => .error e
    | .ok pks =>
      if pks = [] then .ok []
      else
        match fetchListingDetails pks detailFetch with
        | .error e => .error e
        | .ok listings =>
          .ok (filterListings (((listings.filterMap mapApiToListing)).map some) params)

/-- getListings: the try block with the catch that logs and returns []. -/
def getListings (urlRes : Except String (List (String × String)))
    (pinFetch : List (String × String) → Except String (List Pin))
    (detailFetch : List Int → Except String DetailData) : List Item :=
  match getListingsCore urlRes pinFetch detailFetch with
  | .ok l => l
  | .error _ => []

/-- Modelled from the spec: buildHash comes from ../utils.js, which is not
under src/.  The spec describes it as a stable hash over the concatenation
of the raw identifier and the rendered price string; it is modelled as
that concatenation itself (deterministic, and distinct inputs of the shape
used here stay distinct). -/
def buildHash (a b : String) : String := a ++ b

/-- normalize with its Object.assign(o, \x7b id \x7d) effect made explicit:
the first component is the returned object, the second is the state of the
argument after the call (Object.assign writes onto its first argument and
returns that same object). -/
def normalizeEffect (o : Item) : Item × Item :=
  let newId := buildHash (o.id.getD "") (o.price.getD "")
  let o2 := { o with id := some newId }
  (o2, o2)

/-- The value normalize returns. -/
def normalize (o : Item) : Item := (normalizeEffect o).1

/-- Does the term t occur as a substring of s? -/
def strContainsTerm (s t : String) : Bool :=
  (List.range (s.toList.length + 1)).any
    (fun i => List.isPrefixOf t.toList (s.toList.drop i))

/-- Modelled from the spec: isOneOf comes from ../utils.js, which is not
under src/.  The spec describes it as a substring/term match of any
blacklist term in the given text; a null text matches no term. -/
def isOneOf (word : Option String) (arr : List String) : Bool :=
  arr.any (fun t =>
    match word with
    | some w => strContainsTerm w t
    | none => false)

/-- applyBlacklist with the module-level appliedBlackList passed
explicitly (init stores blacklist || [] into it). -/
def applyBlacklist (o : Item) (appliedBlackList : List String) : Bool :=
  let titleNotBlacklisted := !(isOneOf o.title appliedBlackList)
  let descNotBlacklisted := !(isOneOf o.description appliedBlackList)
  decide (o.title ≠ none) && titleNotBlacklisted && descNotBlacklisted

/-- init stores blacklist || [] into the module-level term list. -/
def initBlacklist (blacklist : Option (List String)) : List String :=
  blacklist.getD []

/-! Specification-side readings of the client filter bounds, written after
the words of the spec: the four bound parameters are parsed as
floating-point numbers, an absent minimum defaults to 0 and an absent
maximum to positive infinity. -/

/-- The minimum bound the spec describes for a parameter value: its parsed
value, 0 when the parameter is absent. -/
def specMinVal (v : Option String) : ℚ :=
  match v with
  | none => 0
  | some s => ((jsParseFloat s).toQ?).getD 0

/-- The maximum bound the spec describes for a parameter value: its parsed
value, none (positive infinity, no constraint) when absent. -/
def specMaxVal (v : Option String) : Option ℚ :=
  match v with
  | none => none
  | some s => (jsParseFloat s).toQ?

/-- The bound parameter is absent, or parses to a finite number. -/
def goodBound (v : Option String) : Bool :=
  match v with
  | none => true
  | some s => ((jsParseFloat s).toQ?).isSome

/-- A bound value that is not negative: not negative infinity, and any
finite value is at least 0. -/
def notNegBound (b : JsNum) : Prop :=
  b ≠ JsNum.negInf ∧ ∀ q, b = JsNum.num q → 0 ≤ q

/-- The keys of the association list are pairwise distinct. -/
def nodupKeys (l : List (String × String)) : Prop :=
  (l.map Prod.fst).Nodup

/-- The possibly-null text s contains the term t. -/
def termIn (s : Option String) (t : String) : Prop :=
  ∃ w, s = some w ∧ strContainsTerm w t = true

/-! Concrete inputs used by the closed theorems below. -/

/-- Valid scenario record: pk 101, price 1200, 2 rooms, url and title set. -/
def recValid : Item :=
  { pk := some 101, url := some "/flat/101", short_title := some "Nice flat",
    price_display := some 1200, number_of_rooms := some 2 }

/-- Scenario record missing its url field. -/
def recNoUrl : Item :=
  { pk := some 102, short_title := some "Other flat", price_display := some 1300 }

/-- Record with url present but empty, and a title present. -/
def recEmptyUrl : Item :=
  { pk := some 103, url := some "", short_title := some "Has a title" }

/-- Record with all mandatory fields present and price 0. -/
def recZeroPrice : Item :=
  { pk := some 104, url := some "/flat/104", short_title := some "Cheap",
    price_display := some 0 }

/-- Record with all mandatory fields present and price 1500. -/
def recPrice1500 : Item :=
  { pk := some 105, url := some "/flat/105", short_title := some "Pricey",
    price_display := some 1500 }

/-- The spec end-to-end scenario query: min_price=1000, max_price=2000. -/
def entriesScenario : List (String × String) :=
  [("min_price", "1000"), ("max_price", "2000")]

/-- Pin oracle of the scenario: ids 101 and 102 for any request. -/
def pinFetchScenario : List (String × String) → Except String (List Pin) :=
  fun _ => .ok [⟨101⟩, ⟨102⟩]

/-- Detail oracle of the scenario: the valid record and the record missing
its url, for any request. -/
def detailFetchScenario : List Int → Except String DetailData :=
  fun _ => .ok (.arr [recValid, recNoUrl])

/-- Pin oracle returning no pins. -/
def pinFetchEmpty : List (String × String) → Except String (List Pin) :=
  fun _ => .ok []

/-- Detail oracle returning an empty array. -/
def detailFetchEmpty : List Int → Except String DetailData :=
  fun _ => .ok (.arr [])

/-- Pin oracle returning the single id 101. -/
def pinFetchSingle : List (String × String) → Except String (List Pin) :=
  fun _ => .ok [⟨101⟩]

/-- Detail oracle returning the single valid record. -/
def detailFetchSingle : List Int → Except String DetailData :=
  fun _ => .ok (.arr [recValid])

/-- The mapped listing produced from the valid record. -/
def mappedValid : Item := (mapApiToListing recValid).getD default

/-- A listing with rooms 5/2, as a raw filter input. -/
def itemHalfRooms : Item := { number_of_rooms := some (mkRat 5 2) }

/-- A raw record with a negative displayed price. -/
def itemNegPrice : Item := { price_display := some (-5) }

/-- A mapped-shape listing as it reaches normalize. -/
def listingForHash : Item :=
  { id := some "101", price := some "1200 CHF", title := some "Nice flat" }

/-- The same listing with a different price string. -/
def listingForHash2 : Item :=
  { id := some "101", price := some "1300 CHF", title := some "Nice flat" }

/-! Helper lemmas shared by the claim theorems. -/

theorem ite_false_ite_false_true_eq_true {a b : Bool} :
    (if a then false else if b then false else true) = true ↔ a = false ∧ b = false := by
  cases a <;> cases b <;> simp

theorem mapApiToListing_raw_fields_none {r m : Item} (h : mapApiToListing r = some m) :
    m.number_of_rooms = none ∧ m.price_display = none := by
  unfold mapApiToListing at h
  split at h
  · exact absurd h (by simp)
  · split at h
    · exact absurd h (by simp)
    · obtain rfl := Option.some_injective _ h.symm
      exact ⟨rfl, rfl⟩

theorem filterItem_mapped_min {m : Item} (hr : m.number_of_rooms = none)
    (hp : m.price_display = none) (params : Params)
    (h : (∃ q, jsBoundMin (jsGet params "min_rooms") = JsNum.num q ∧ 0 < q) ∨
         (∃ q, jsBoundMin (jsGet params "min_price") = JsNum.num q ∧ 0 < q)) :
    filterItem m params = false := by
  unfold filterItem
  rw [hr, hp]
  rcases h with ⟨q, hq, hq0⟩ | ⟨q, hq, hq0⟩
  · rw [hq]
    simp [jsLtQ, hq0]
  · rw [hq]
    cases hcond : (jsLtQ (Option.getD none 0) (jsBoundMin (jsGet params "min_rooms")) ||
        jsGtQ (Option.getD none 0) (jsBoundMax (jsGet params "max_rooms"))) <;>
      simp [hcond, jsLtQ, hq0]

/-- C1: every error raised inside the pipeline (malformed URL, non-success
pin response, non-success or transport failure of the detail request) is
caught at the top level of getListings and converted into the empty list;
the adapter never raises (getListings is total by construction). -/
theorem C1_getListings_catches_all_errors
    (urlRes : Except String (List (String × String)))
    (pinFetch : List (String × String) → Except String (List Pin))
    (detailFetch : List Int → Except String DetailData)
    (e : String) (h : getListingsCore urlRes pinFetch detailFetch = .error e) :
    getListings urlRes pinFetch detailFetch = [] := by
  unfold getListings
  rw [h]

/-- C1 witness: a malformed URL (the URL constructor throws before any
request) yields the empty list. -/
theorem C1_witness :
    getListings (.error "Invalid URL") pinFetchEmpty detailFetchEmpty = [] :=
  C1_getListings_catches_all_errors (.error "Invalid URL") pinFetchEmpty
    detailFetchEmpty "Invalid URL" rfl

theorem mem_pinParam {params : Params} {k' k v : String} :
    (k, v) ∈ pinParam params k' ↔ k = k' ∧ jsGet params k' = some v ∧ v ≠ "" := by
  unfold pinParam
  cases h : jsGet params k' with
  | none => simp
  | some s =>
    by_cases hs : s = ""
    · subst hs
      simp only [if_pos rfl]
      constructor
      · intro hmem
        exact absurd hmem (by simp)
      · rintro ⟨rfl, hv, hne⟩
        exact absurd (Option.some_injective _ hv).symm hne
    · simp only [if_neg hs, List.mem_singleton, Prod.mk.injEq]
      constructor
      · rintro ⟨rfl, rfl⟩
        exact ⟨rfl, rfl, hs⟩
      · rintro ⟨rfl, hv, _⟩
        exact ⟨rfl, (Option.some_injective _ hv).symm⟩

/-- C5 counterexample: the key east is present in the input params (with
the empty string as value) yet the built pin query does not carry it —
presence alone does not make the code copy a recognized key. -/
theorem C5_counterexample_empty_value :
    jsGet [("east", "")] "east" = some "" ∧
    buildPinQuery [("east", "")] = [("max_count", "400")] := by
  exact ⟨by decide, by decide⟩

/-- C5 amended: the pin query carries a pair (k, v) exactly when k is a
recognized key present in the input params with the non-empty value v
(presence with an empty value is treated as absence), or when it is the
fixed pair max_count=400, which is always set and never taken from the
caller params. -/
theorem C5_pin_query (params : Params) (k v : String) :
    (k, v) ∈ buildPinQuery params ↔
      (k ∈ recognizedPinKeys ∧ jsGet params k = some v ∧ v ≠ "") ∨
      (k = "max_count" ∧ v = "400") := by
  unfold buildPinQuery
  rw [List.mem_append, List.mem_flatMap]
  constructor
  · rintro (⟨k', hk', hmem⟩ | hmc)
    · obtain ⟨rfl, hv, hne⟩ := mem_pinParam.mp hmem
      exact Or.inl ⟨hk', hv, hne⟩
    · rw [List.mem_singleton, Prod.mk.injEq] at hmc
      exact Or.inr hmc
  · rintro (⟨hk, hv, hne⟩ | ⟨rfl, rfl⟩)
    · exact Or.inl ⟨k, hk, mem_pinParam.mpr ⟨rfl, hv, hne⟩⟩
    · exact Or.inr (by simp)

/-- C6 counterexample: a record whose url field is present (but empty) and
whose short_title is present is rejected by the mapper, though the claim
says every record with the link-source field present and a title present
maps to a non-null listing. -/
theorem C6_counterexample_empty_url :
    recEmptyUrl.url ≠ none ∧ recEmptyUrl.short_title ≠ none ∧
    mapApiToListing recEmptyUrl = none := by
  exact ⟨by decide, by decide, by decide⟩

/-- C6 amended: the mapper returns the null sentinel exactly when the url
field is absent or empty, or when short_title and pitch_title are both
absent or empty; otherwise it returns a non-null listing. -/
theorem C6_mapper_rejections (item : Item) :
    mapApiToListing item = none ↔
      truthyStr item.url = false ∨
      (truthyStr item.short_title = false ∧ truthyStr item.pitch_title = false) := by
  by_cases h1 : truthyStr item.url = false
  · simp [mapApiToListing, h1]
  · by_cases h2 : truthyStr item.short_title = false ∧ truthyStr item.pitch_title = false
    · simp [mapApiToListing, h1, h2]
    · simp [mapApiToListing, h1, h2]

/-- C7 counterexample: a record with a numeric price present (0) maps to
the empty price string, though the claim says a formatted price with the
currency suffix is produced whenever a numeric price is present. -/
theorem C7_counterexample_zero_price :
    recZeroPrice.price_display = some 0 ∧
    mapApiToListing recZeroPrice ≠ none ∧
    ((mapApiToListing recZeroPrice).getD default).price = some "" := by
  exact ⟨by decide, by decide, by decide⟩

/-- C7 amended: for every record the mapper accepts, the price string is
the de-CH locale rendering of price_display followed by the suffix CHF
whenever a NON-ZERO numeric price is present, and the empty string when
price_display is absent or 0. -/
theorem C7_price_formatting (item l : Item) (h : mapApiToListing item = some l) :
    (∀ p, item.price_display = some p → p ≠ 0 →
      l.price = some (toLocaleStringDeCH p ++ " CHF")) ∧
    ((item.price_display = none ∨ item.price_display = some 0) →
      l.price = some "") := by
  unfold mapApiToListing at h
  split at h
  · exact absurd h (by simp)
  · split at h
    · exact absurd h (by simp)
    · obtain rfl := Option.some_injective _ h.symm
      constructor
      · intro p hp hp0
        simp [hp, hp0]
      · rintro (hp | hp) <;> simp [hp]

/-- C7 witness: the valid record with price 1500 maps to the price string
1 U+2019 500 CHF, which contains the grouped digits and the CHF suffix. -/
theorem C7_witness :
    ((mapApiToListing recPrice1500).getD default).price =
      some ("1" ++ String.singleton groupSep ++ "500 CHF") ∧
    strContainsTerm ("1" ++ String.singleton groupSep ++ "500 CHF")
      ("1" ++ String.singleton groupSep ++ "500") = true ∧
    strContainsTerm ("1" ++ String.singleton groupSep ++ "500 CHF") "CHF" = true := by
  have h := C7_price_formatting recPrice1500
    ((mapApiToListing recPrice1500).getD default) (by decide)
  have h1 := h.1 1500 (by decide) (by decide)
  refine ⟨?_, by decide, by decide⟩
  rw [h1]
  decide

/-- C8 counterexample: normalize does modify its input listing object —
Object.assign writes the content-hash id onto the argument, so the state
of the argument after the call differs from the original listing. -/
theorem C8_counterexample_mutation :
    (normalizeEffect listingForHash).2 ≠ listingForHash := by
  decide

/-- C8 amended: normalize is deterministic — identical (id, price) pairs
produce the same content-hash id, and changing the price string for the
same id produces a different id — but it is not free of effects on its
argument: it assigns the new id onto the input object and returns that
same object, so the input is modified in place. -/
theorem C8_hash_identity :
    (∀ o o' : Item, o.id = o'.id → o.price = o'.price →
      (normalizeEffect o).1.id = (normalizeEffect o').1.id) ∧
    (∀ (o o' : Item) (p p' : String), o.id = o'.id → o.price = some p →
      o'.price = some p' → p ≠ p' →
      (normalizeEffect o).1.id ≠ (normalizeEffect o').1.id) ∧
    (∀ o : Item, (normalizeEffect o).2 = (normalizeEffect o).1) := by
  refine ⟨?_, ?_, fun o => rfl⟩
  · intro o o' hid hprice
    simp [normalizeEffect, hid, hprice]
  · intro o o' p p' hid hp hp' hne
    simp only [normalizeEffect, buildHash, hid, hp, hp', Option.getD_some]
    intro hEq
    apply hne
    have hEq2 := Option.some_injective _ hEq
    have hdata := congrArg String.data hEq2
    rw [String.data_append, String.data_append] at hdata
    exact String.ext (List.append_cancel_left hdata)

/-- C8 witness: two listings with the same raw id and different price
strings receive different content-hash ids. -/
theorem C8_witness :
    (normalizeEffect listingForHash).1.id ≠ (normalizeEffect listingForHash2).1.id :=
  C8_hash_identity.2.1 listingForHash listingForHash2 "1200 CHF" "1300 CHF"
    rfl rfl rfl (by decide)

theorem isOneOf_eq_false_iff {s : Option String} {bl : List String} :
    isOneOf s bl = false ↔ ∀ t ∈ bl, ¬ termIn s t := by
  unfold isOneOf
  rw [List.any_eq_false]
  constructor
  · rintro h t ht ⟨w, hw, hc⟩
    have h2 := h t ht
    rw [hw] at h2
    exact h2 hc
  · intro h t ht
    cases hs : s with
    | none => simp
    | some w =>
      intro hc
      exact h t ht ⟨w, hs, hc⟩

/-- C9: the blacklist filter retains a listing exactly when its title is
non-null and no blacklist term occurs in the title or in the description;
in particular an empty blacklist removes nothing with a non-null title, a
null title is always removed, and a term occurring as a substring of the
title removes the listing.  The matching utility isOneOf lives in
../utils.js (not under src/) and is modelled from the spec as a substring
match. -/
theorem C9_blacklist_filter :
    (∀ (o : Item) (bl : List String), applyBlacklist o bl = true ↔
      (o.title ≠ none ∧ (∀ t ∈ bl, ¬ termIn o.title t) ∧
       (∀ t ∈ bl, ¬ termIn o.description t))) ∧
    (∀ o : Item, o.title ≠ none → applyBlacklist o [] = true) ∧
    (∀ (o : Item) (bl : List String), o.title = none → applyBlacklist o bl = false) ∧
    (∀ (o : Item) (bl : List String) (t w : String), t ∈ bl → o.title = some w →
      strContainsTerm w t = true → applyBlacklist o bl = false) := by
  have main : ∀ (o : Item) (bl : List String), applyBlacklist o bl = true ↔
      (o.title ≠ none ∧ (∀ t ∈ bl, ¬ termIn o.title t) ∧
       (∀ t ∈ bl, ¬ termIn o.description t)) := by
    intro o bl
    simp only [applyBlacklist, Bool.and_eq_true, decide_eq_true_eq, Bool.not_eq_true']
    rw [isOneOf_eq_false_iff, isOneOf_eq_false_iff]
    tauto
  refine ⟨main, ?_, ?_, ?_⟩
  · intro o h
    exact (main o []).mpr ⟨h, by simp, by simp⟩
  · intro o bl h
    simp [applyBlacklist, h]
  · intro o bl t w ht hw hc
    have hone : isOneOf o.title bl = true := by
      unfold isOneOf
      rw [List.any_eq_true]
      exact ⟨t, ht, by rw [hw]; simpa using hc⟩
    simp [applyBlacklist, hone]

/-- C9 witness: a blacklist term occurring as a substring of the title
removes the listing. -/
theorem C9_witness :
    applyBlacklist { title := some "Nice Wohnung" } ["Wohnung"] = false :=
  C9_blacklist_filter.2.2.2 { title := some "Nice Wohnung" } ["Wohnung"]
    "Wohnung" "Nice Wohnung" (by decide) rfl (by decide)

theorem jsSet_of_not_mem (m : List (String × String)) (k v : String)
    (h : m.any (fun p => p.1 = k) = false) : jsSet m k v = m ++ [(k, v)] := by
  simp [jsSet, h]

theorem keys_map_update (m : List (String × String)) (k v : String) :
    (m.map (fun p => if p.1 = k then (p.1, v) else p)).map Prod.fst = m.map Prod.fst := by
  induction m with
  | nil => rfl
  | cons hd t ih =>
    simp only [List.map_cons, ih, List.cons.injEq, and_true]
    split <;> rfl

theorem nodupKeys_jsSet (m : List (String × String)) (k v : String)
    (h : nodupKeys m) : nodupKeys (jsSet m k v) := by
  unfold jsSet
  split
  · unfold nodupKeys
    rw [keys_map_update]
    exact h
  · next hany =>
    have hfalse : m.any (fun p => p.1 = k) = false := Bool.eq_false_iff.mpr hany
    rw [List.any_eq_false] at hfalse
    unfold nodupKeys
    rw [List.map_append, List.nodup_append]
    refine ⟨h, by simp, ?_⟩
    intro a ha hb
    simp only [List.map_cons, List.map_nil, List.mem_singleton] at hb
    subst hb
    obtain ⟨p, hp, hpk⟩ := List.mem_map.mp ha
    have h2 := hfalse p hp
    simp only [decide_eq_true_eq] at h2
    exact h2 hpk

theorem parse_aux : ∀ (m acc : List (String × String)), nodupKeys m →
    (∀ k, k ∈ m.map Prod.fst → acc.any (fun p => p.1 = k) = false) →
    List.foldl (fun mm kv => jsSet mm kv.1 kv.2) acc m = acc ++ m := by
  intro m
  induction m with
  | nil => intro acc _ _; simp
  | cons hd t ih =>
    intro acc hnd hacc
    have hnd' : (hd.1 :: t.map Prod.fst).Nodup := hnd
    obtain ⟨hhd, hndt⟩ := List.nodup_cons.mp hnd'
    rw [List.foldl_cons, jsSet_of_not_mem acc hd.1 hd.2 (hacc hd.1 (by simp))]
    rw [ih (acc ++ [(hd.1, hd.2)]) hndt ?_]
    · simp
    · intro k hk
      rw [List.any_append]
      rw [hacc k (by simp [hk]), Bool.false_or]
      simp only [List.any_cons, List.any_nil, Bool.or_false]
      simp only [decide_eq_false_iff_not]
      intro hcontra
      subst hcontra
      exact hhd hk

theorem parse_self (m : List (String × String)) (h : nodupKeys m) :
    parseSearchUrl m = m := by
  have := parse_aux m [] h (by intro k _; rfl)
  simpa [parseSearchUrl] using this

theorem parse_nodup : ∀ (m acc : List (String × String)), nodupKeys acc →
    nodupKeys (List.foldl (fun mm kv => jsSet mm kv.1 kv.2) acc m) := by
  intro m
  induction m with
  | nil => intro acc h; simpa using h
  | cons hd t ih =>
    intro acc h
    rw [List.foldl_cons]
    exact ih _ (nodupKeys_jsSet acc hd.1 hd.2 h)

/-- C10: for a well-formed search URL (each query key occurring once) the
extracted parameter mapping is exactly the query entries with their string
values, and extraction round-trips: re-encoding the extracted mapping as
query entries and re-parsing yields the same mapping. -/
theorem C10_param_extraction :
    (∀ entries, nodupKeys entries → parseSearchUrl entries = entries) ∧
    (∀ entries, parseSearchUrl (parseSearchUrl entries) = parseSearchUrl entries) := by
  constructor
  · exact parse_self
  · intro entries
    exact parse_self _ (parse_nodup entries [] (by simp [nodupKeys]))

/-- C10 witness: a concrete well-formed query round-trips unchanged. -/
theorem C10_witness :
    nodupKeys [("east", "7.533549"), ("south", "46.909588")] ∧
    parseSearchUrl [("east", "7.533549"), ("south", "46.909588")] =
      [("east", "7.533549"), ("south", "46.909588")] :=
  ⟨by unfold nodupKeys; decide,
   C10_param_extraction.1 _ (by unfold nodupKeys; decide)⟩

theorem boundMin_false_iff (v : Option String) (x : ℚ) (h : goodBound v = true) :
    (jsLtQ x (jsBoundMin v) = false ↔ specMinVal v ≤ x) := by
  cases v with
  | none =>
    simp [jsBoundMin, specMinVal, jsLtQ, not_lt]
  | some s =>
    simp only [goodBound] at h
    by_cases hs : s = ""
    · subst hs
      exact absurd h (by decide)
    · simp only [jsBoundMin, specMinVal, if_neg hs]
      cases hp : jsParseFloat s with
      | num q => simp [jsLtQ, JsNum.toQ?, not_lt]
      | posInf => rw [hp] at h; exact absurd h (by simp [JsNum.toQ?])
      | negInf => rw [hp] at h; exact absurd h (by simp [JsNum.toQ?])
      | nan => rw [hp] at h; exact absurd h (by simp [JsNum.toQ?])

theorem boundMax_false_iff (v : Option String) (x : ℚ) (h : goodBound v = true) :
    (jsGtQ x (jsBoundMax v) = false ↔ ∀ q, specMaxVal v = some q → x ≤ q) := by
  cases v with
  | none =>
    simp [jsBoundMax, specMaxVal, jsGtQ]
  | some s =>
    simp only [goodBound] at h
    by_cases hs : s = ""
    · subst hs
      exact absurd h (by decide)
    · simp only [jsBoundMax, specMaxVal, if_neg hs]
      cases hp : jsParseFloat s with
      | num q => simp [jsGtQ, JsNum.toQ?, not_lt]
      | posInf => rw [hp] at h; exact absurd h (by simp [JsNum.toQ?])
      | negInf => rw [hp] at h; exact absurd h (by simp [JsNum.toQ?])
      | nan => rw [hp] at h; exact absurd h (by simp [JsNum.toQ?])

/-- C3 counterexample: with no price bound configured (and no rooms bound
either), a record with a negative displayed price is excluded — the
absent minimum defaults to 0, so the record does NOT pass the price check
regardless of its price, contrary to the claim. -/
theorem C3_counterexample_negative_price :
    jsGet ([] : Params) "min_price" = none ∧
    jsGet ([] : Params) "max_price" = none ∧
    itemNegPrice.price_display = some (-5) ∧
    filterListings [some itemNegPrice] [] = [] := by
  exact ⟨rfl, rfl, rfl, by decide⟩

/-- C3 amended: when every configured bound parses to a finite number,
filterListings retains a (non-null) record exactly when its room count
and its price lie within the inclusive bounds, the minimum bounds
defaulting to 0 and the maximum bounds to positive infinity when absent;
consequently a record with rooms 5/2 is excluded under min_rooms=3, and
with no price bound configured every record with nonnegative price passes
the price check (a negative price is excluded by the 0 default). -/
theorem C3_filter_bounds (params : Params) (item : Item)
    (h1 : goodBound (jsGet params "min_rooms") = true)
    (h2 : goodBound (jsGet params "max_rooms") = true)
    (h3 : goodBound (jsGet params "min_price") = true)
    (h4 : goodBound (jsGet params "max_price") = true) :
    (filterItem item params = true ↔
      (specMinVal (jsGet params "min_rooms") ≤ item.number_of_rooms.getD 0 ∧
       (∀ q, specMaxVal (jsGet params "max_rooms") = some q →
         item.number_of_rooms.getD 0 ≤ q) ∧
       specMinVal (jsGet params "min_price") ≤ ((item.price_display.getD 0 : ℤ) : ℚ) ∧
       (∀ q, specMaxVal (jsGet params "max_price") = some q →
         ((item.price_display.getD 0 : ℤ) : ℚ) ≤ q))) := by
  simp only [filterItem]
  rw [ite_false_ite_false_true_eq_true, Bool.or_eq_false_iff, Bool.or_eq_false_iff]
  rw [boundMin_false_iff _ _ h1, boundMax_false_iff _ _ h2,
    boundMin_false_iff _ _ h3, boundMax_false_iff _ _ h4]
  tauto

/-- C3 witness: a record with rooms 5/2 is excluded under min_rooms=3. -/
theorem C3_witness :
    goodBound (jsGet [("min_rooms", "3")] "min_rooms") = true ∧
    filterItem itemHalfRooms [("min_rooms", "3")] = false := by
  refine ⟨by decide, ?_⟩
  have h := C3_filter_bounds [("min_rooms", "3")] itemHalfRooms
    (by decide) (by decide) (by decide) (by decide)
  rw [Bool.eq_false_iff]
  intro ht
  have h2 := (h.mp ht).1
  revert h2
  decide

theorem jsGtQ_zero_notNeg {b : JsNum} (h : notNegBound b) : jsGtQ 0 b = false := by
  cases b with
  | num q =>
    simp only [jsGtQ, decide_eq_false_iff_not, not_lt]
    exact h.2 q rfl
  | posInf => rfl
  | negInf => exact absurd rfl h.1
  | nan => rfl

/-- C4 counterexample: a max bound CAN exclude a mapped listing — with
max_price=-5 and no min bound configured, the mapped valid listing
(evaluated with price 0) is removed by the price > maxPrice check. -/
theorem C4_counterexample_negative_max :
    mapApiToListing recValid = some mappedValid ∧
    jsGet [("max_price", "-5")] "min_rooms" = none ∧
    jsGet [("max_price", "-5")] "min_price" = none ∧
    filterListings [some mappedValid] [("max_price", "-5")] = [] := by
  exact ⟨by decide, rfl, rfl, by decide⟩

/-- C4 amended: mapped listings carry neither number_of_rooms nor
price_display, so the filter evaluates them with rooms 0 and price 0;
hence whenever min_rooms or min_price parses to a value strictly greater
than 0, getListings returns the empty list, and for max bounds that do
not parse to a negative value, the max checks never exclude a mapped
listing (retention is decided by the min checks alone). -/
theorem C4_amended :
    (∀ (entries : List (String × String))
        (pinFetch : List (String × String) → Except String (List Pin))
        (detailFetch : List Int → Except String DetailData),
      ((∃ q, jsBoundMin (jsGet (parseSearchUrl entries) "min_rooms") = JsNum.num q ∧ 0 < q) ∨
       (∃ q, jsBoundMin (jsGet (parseSearchUrl entries) "min_price") = JsNum.num q ∧ 0 < q)) →
      getListings (.ok entries) pinFetch detailFetch = []) ∧
    (∀ (r m : Item) (params : Params), mapApiToListing r = some m →
      notNegBound (jsBoundMax (jsGet params "max_rooms")) →
      notNegBound (jsBoundMax (jsGet params "max_price")) →
      (filterItem m params = true ↔
        (jsLtQ 0 (jsBoundMin (jsGet params "min_rooms")) = false ∧
         jsLtQ 0 (jsBoundMin (jsGet params "min_price")) = false))) := by
  constructor
  · intro entries pf df hmin
    have key : ∀ l : List Item,
        filterListings ((l.filterMap mapApiToListing).map some) (parseSearchUrl entries) = [] := by
      intro l
      unfold filterListings
      rw [List.filterMap_eq_nil_iff]
      intro oi hoi
      rw [List.mem_map] at hoi
      obtain ⟨m, hm, rfl⟩ := hoi
      obtain ⟨r, _, hr⟩ := List.mem_filterMap.mp hm
      obtain ⟨hrn, hpn⟩ := mapApiToListing_raw_fields_none hr
      simp [filterItem_mapped_min hrn hpn _ hmin]
    simp only [getListings, getListingsCore]
    cases hpin : fetchListingIds (parseSearchUrl entries) pf with
    | error e => simp
    | ok pks =>
      by_cases hpks : pks = []
      · subst hpks
        simp
      · simp only [if_neg hpks]
        cases hdet : fetchListingDetails pks df with
        | error e => simp
        | ok listings => simp [key listings]
  · intro r m params hmap hmr hmp
    obtain ⟨hrn, hpn⟩ := mapApiToListing_raw_fields_none hmap
    have gr := jsGtQ_zero_notNeg hmr
    have gp := jsGtQ_zero_notNeg hmp
    simp only [filterItem, hrn, hpn, Option.getD_none, Int.cast_zero]
    rw [gr, gp, Bool.or_false, Bool.or_false, ite_false_ite_false_true_eq_true]

/-- C4 witness: with min_rooms=3 in the search params, getListings returns
the empty list even though the upstream oracle serves one valid record. -/
theorem C4_witness :
    getListings (.ok [("min_rooms", "3")]) pinFetchSingle detailFetchSingle = [] :=
  C4_amended.1 [("min_rooms", "3")] pinFetchSingle detailFetchSingle
    (Or.inl ⟨3, by decide, by decide⟩)

/-- C2: in the end-to-end scenario of the spec (pins 101 and 102, one valid
record with price 1200 and 2 rooms, one record missing its url,
min_price=1000 and max_price=2000) the code returns the EMPTY list, not a
list of length 1: the mapper does yield one listing and one rejection, but
the client filter reads number_of_rooms and price_display from the mapped
listing, where both are absent, so the listing is evaluated with price 0
and excluded by min_price=1000. -/
theorem C2_scenario_code_divergence :
    getListings (.ok entriesScenario) pinFetchScenario detailFetchScenario = [] ∧
    mapApiToListing recValid ≠ none ∧
    mapApiToListing recNoUrl = none ∧
    (getListings (.ok entriesScenario) pinFetchScenario detailFetchScenario).length ≠ 1 := by
  refine ⟨by decide, by decide, by decide, by decide⟩

end Flatfox
